import Mathlib

/-!
Shallow embedding of `src/tasks.rs` of the agenda repository
(task data model and the in-memory task collection), together with
theorems checking the specification's claims about it.

Rust `&mut self` methods returning `Result<T, TasksError>` are embedded as
pure functions `Tasks → ... → Except TasksError T × Tasks`, returning the
result together with the updated collection state.
-/

namespace Agenda

/-- `chrono::NaiveDateTime` is modelled as an abstract timestamp value.
None of the embedded operations inspect datetimes beyond storing them and
testing `Option` presence, so a natural number is a faithful carrier. -/
abbrev NaiveDateTime := Nat

/-- Rust `enum Status` from `src/tasks.rs`. -/
inductive Status where
  | Inbox
  | Pending
  | Active
  | Complete
deriving DecidableEq, Repr

/-- Rust `struct TasksError(String)`. -/
structure TasksError where
  msg : String
deriving DecidableEq, Repr

/-- Rust `fn task_not_found(id: usize) -> TasksError`. -/
def task_not_found (id : Nat) : TasksError :=
  TasksError.mk ("couldn't find task with id " ++ toString id)

/-- Rust `fn no_tasks_available() -> TasksError`. -/
def no_tasks_available : TasksError :=
  TasksError.mk "no tasks available"

/-- Rust `struct Task` from `src/tasks.rs`. -/
structure Task where
  title : String
  status : Status
  notes : Option String
  tags : Option (List String)
  when : Option NaiveDateTime
  deadline : Option NaiveDateTime
  reminder : Option NaiveDateTime
deriving DecidableEq, Repr

/-- Rust `Task::new`: stores all fields verbatim and derives `status`
from the presence of `when`. -/
def Task.new (title : String) (notes : Option String) (tags : Option (List String))
    (when deadline reminder : Option NaiveDateTime) : Task :=
  { title := title
    status := if when.isSome then Status.Pending else Status.Inbox
    notes := notes
    tags := tags
    when := when
    deadline := deadline
    reminder := reminder }

/-- Rust `Task::modify`: a sequence of `if let Some(x) = arg` updates,
each overwriting its field only when the argument is present. -/
def Task.modify (t : Task) (title : Option String) (notes : Option String)
    (tags : Option (List String)) (when deadline reminder : Option NaiveDateTime) : Task :=
  let t := match title with
    | some title => { t with title := title }
    | none => t
  let t := match notes with
    | some notes => { t with notes := some notes }
    | none => t
  let t := match tags with
    | some tags => { t with tags := some tags }
    | none => t
  let t := match when with
    | some w => { t with when := some w }
    | none => t
  let t := match deadline with
    | some deadline => { t with deadline := some deadline }
    | none => t
  let t := match reminder with
    | some reminder => { t with reminder := some reminder }
    | none => t
  t

/-- Rust `Task::start`. -/
def Task.start (t : Task) : Task :=
  { t with status := Status.Active }

/-- Rust `Task::stop`.  Note the branches as written in the source:
`Inbox` when `when` is set, `Pending` when it is not. -/
def Task.stop (t : Task) : Task :=
  if t.when.isSome then
    { t with status := Status.Inbox }
  else
    { t with status := Status.Pending }

/-- Rust `Task::complete`. -/
def Task.complete (t : Task) : Task :=
  { t with status := Status.Complete }

/-- Rust `struct Tasks` from `src/tasks.rs`. -/
structure Tasks where
  path : String
  file : String
  tasks : Option (List Task)
deriving DecidableEq, Repr

/-- Rust `Tasks::new`. -/
def Tasks.new (repo_path : String) (tasks_file : String) : Tasks :=
  { path := repo_path, file := tasks_file, tasks := none }

/-- Rust `Tasks::len`: `0` when `tasks` is `None`, else the vector length. -/
def Tasks.len (ts : Tasks) : Nat :=
  match ts.tasks with
  | none => 0
  | some l => l.length

/-- Rust `Tasks::task_exists`: `id < self.len()`. -/
def Tasks.task_exists (ts : Tasks) (id : Nat) : Bool :=
  id < ts.len

/-- Rust `Tasks::is_empty`: `self.len() == 0`. -/
def Tasks.is_empty (ts : Tasks) : Bool :=
  ts.len == 0

/-- The task sequence held by the collection (`None` reads as empty). -/
def Tasks.taskList (ts : Tasks) : List Task :=
  ts.tasks.getD []

/-- Rust `Tasks::get_task`.  Checks emptiness first, then bounds, and on
success returns the task at position `id` (the collection is unchanged:
the Rust body only takes `&mut self` to hand out a mutable reference).
The bounds guard `id < ts.taskList.length` is the dependent form of the
source's `self.task_exists(id)`; the two are proved equal below. -/
def Tasks.get_task (ts : Tasks) (id : Nat) : Except TasksError Task × Tasks :=
  if ts.is_empty then
    (Except.error no_tasks_available, ts)
  else if h : id < ts.taskList.length then
    (Except.ok (ts.taskList.get ⟨id, h⟩), ts)
  else
    (Except.error (task_not_found id), ts)

/-- Rust `Tasks::push`: starts a fresh one-element vector when empty,
otherwise appends to the existing vector. -/
def Tasks.push (ts : Tasks) (t : Task) : Tasks :=
  if ts.is_empty then
    { ts with tasks := some [t] }
  else
    { ts with tasks := some (ts.taskList ++ [t]) }

/-- Rust `Tasks::remove`: `Vec::remove(id)` after a `task_exists` check. -/
def Tasks.remove (ts : Tasks) (id : Nat) : Except TasksError Unit × Tasks :=
  if ts.task_exists id then
    (Except.ok (), { ts with tasks := some (ts.taskList.eraseIdx id) })
  else
    (Except.error (task_not_found id), ts)

/-- Rust `Tasks::clear`: errors when already empty, otherwise resets
`tasks` to `None`. -/
def Tasks.clear (ts : Tasks) : Except TasksError Unit × Tasks :=
  if ts.is_empty then
    (Except.error no_tasks_available, ts)
  else
    (Except.ok (), { ts with tasks := none })

/-! ### Concrete collections used as evaluation witnesses -/

def taskA : Task := Task.new "A" none none none none none

def taskB : Task := Task.new "B" none none none none none

def taskC : Task := Task.new "C" none none none none none

def tasksEmpty : Tasks := Tasks.new "repo" "file"

def tasksABC : Tasks := ((tasksEmpty.push taskA).push taskB).push taskC

/-! ### Basic lemmas about the embedding -/

theorem Tasks.taskList_length (ts : Tasks) : ts.taskList.length = ts.len := by
  cases h : ts.tasks <;> simp [Tasks.taskList, Tasks.len, h]

theorem Tasks.task_exists_eq (ts : Tasks) (id : Nat) :
    ts.task_exists id = decide (id < ts.taskList.length) := by
  simp [Tasks.task_exists, Tasks.taskList_length]

theorem Tasks.is_empty_iff (ts : Tasks) : ts.is_empty = true ↔ ts.len = 0 := by
  simp [Tasks.is_empty]

/-- The two error constructors produce distinct error values: the
`task_not_found` message starts with a different character than the
`no_tasks_available` message, whatever the id. -/
theorem task_not_found_ne_no_tasks_available (id : Nat) :
    task_not_found id ≠ no_tasks_available := by
  intro h
  have hmsg : ("couldn't find task with id " ++ toString id : String) = "no tasks available" :=
    congrArg TasksError.msg h
  have hdata := congrArg String.data hmsg
  rw [String.data_append] at hdata
  have hc : ("couldn't find task with id " : String).data =
      'c' :: ("ouldn't find task with id " : String).data := rfl
  have hn : ("no tasks available" : String).data =
      'n' :: ("o tasks available" : String).data := rfl
  rw [hc, hn, List.cons_append] at hdata
  have hhead := congrArg List.head? hdata
  simp only [List.head?] at hhead
  exact absurd (Option.some.inj hhead) (by decide)

/-! ### Claim theorems -/

/-- Claim C1: the claim (and the spec) say `stop()` sets `Pending` when
`when` is set and `Inbox` otherwise.  The source does the opposite:
its `stop()` sets `Inbox` when `when` is set and `Pending` when it is
not, contradicting the derivation `Task::new` itself uses.  This theorem
evaluates the code at the failing inputs: a task constructed with `when`
set (hence status `Pending`) that is started and then stopped ends in
`Inbox`, and one constructed without `when` ends in `Pending`. -/
theorem stop_inverts_claimed_derivation :
    ((Task.new "t" none none (some 0) none none).start.stop).status = Status.Inbox ∧
    ((Task.new "t" none none none none none).start.stop).status = Status.Pending ∧
    (Task.new "t" none none (some 0) none none).status = Status.Pending ∧
    (Task.new "t" none none none none none).status = Status.Inbox :=
  ⟨rfl, rfl, rfl, rfl⟩

/-- Claim C3: for every choice of constructor arguments, `Task.new`
derives status `Pending` when `when` is `some` and `Inbox` when it is
`none`, and stores every other field exactly as passed. -/
theorem Task.new_spec (title : String) (notes : Option String) (tags : Option (List String))
    (w d r : Option NaiveDateTime) :
    (Task.new title notes tags w d r).status =
        (if w.isSome then Status.Pending else Status.Inbox) ∧
    (Task.new title notes tags w d r).title = title ∧
    (Task.new title notes tags w d r).notes = notes ∧
    (Task.new title notes tags w d r).tags = tags ∧
    (Task.new title notes tags w d r).when = w ∧
    (Task.new title notes tags w d r).deadline = d ∧
    (Task.new title notes tags w d r).reminder = r :=
  ⟨rfl, rfl, rfl, rfl, rfl, rfl, rfl⟩

/-- Claim C6: `modify` overwrites exactly the fields whose argument is
present, leaves the fields whose argument is absent unchanged, never
changes `status`, and with all arguments absent is a no-op. -/
theorem Task.modify_spec (t : Task) (ti nt : Option String) (ta : Option (List String))
    (w d r : Option NaiveDateTime) :
    (t.modify ti nt ta w d r).status = t.status ∧
    (t.modify ti nt ta w d r).title = (match ti with | some s => s | none => t.title) ∧
    (t.modify ti nt ta w d r).notes = (match nt with | some s => some s | none => t.notes) ∧
    (t.modify ti nt ta w d r).tags = (match ta with | some l => some l | none => t.tags) ∧
    (t.modify ti nt ta w d r).when = (match w with | some x => some x | none => t.when) ∧
    (t.modify ti nt ta w d r).deadline =
        (match d with | some x => some x | none => t.deadline) ∧
    (t.modify ti nt ta w d r).reminder =
        (match r with | some x => some x | none => t.reminder) ∧
    t.modify none none none none none none = t := by
  cases ti <;> cases nt <;> cases ta <;> cases w <;> cases d <;> cases r <;>
    exact ⟨rfl, rfl, rfl, rfl, rfl, rfl, rfl, rfl⟩

/-- Claim C9: `complete()` unconditionally sets status to `Complete` and
is idempotent: a second `complete()` changes nothing at all. -/
theorem Task.complete_spec (t : Task) :
    (t.complete).status = Status.Complete ∧ t.complete.complete = t.complete :=
  ⟨rfl, rfl⟩

/-- Claim C2: `get_task` fails with `NoTasksAvailable` whenever the
collection is empty (regardless of the id), fails with `TaskNotFound(id)`
when the collection is non-empty and `id` is out of bounds, and otherwise
returns the task stored at position `id`.  The empty-collection error
takes precedence: the first conjunct places no constraint on `id`. -/
theorem Tasks.get_task_spec (ts : Tasks) (id : Nat) :
    (ts.len = 0 → (ts.get_task id).1 = Except.error no_tasks_available) ∧
    (ts.len ≠ 0 → ts.len ≤ id → (ts.get_task id).1 = Except.error (task_not_found id)) ∧
    (∀ h : id < ts.taskList.length,
      (ts.get_task id).1 = Except.ok (ts.taskList.get ⟨id, h⟩)) := by
  refine ⟨fun h => ?_, fun h1 h2 => ?_, fun h => ?_⟩
  · simp [Tasks.get_task, Tasks.is_empty, h]
  · have hb : ¬ id < ts.taskList.length := by rw [Tasks.taskList_length]; omega
    simp [Tasks.get_task, Tasks.is_empty, h1, hb]
  · have h1 : ts.len ≠ 0 := by rw [← Tasks.taskList_length]; omega
    simp [Tasks.get_task, Tasks.is_empty, h1, h]

theorem Tasks.get_task_spec_witness :
    (tasksEmpty.get_task 5).1 = Except.error no_tasks_available ∧
    (tasksABC.get_task 3).1 = Except.error (task_not_found 3) ∧
    (tasksABC.get_task 1).1 = Except.ok taskB :=
  ⟨(Tasks.get_task_spec tasksEmpty 5).1 rfl,
   (Tasks.get_task_spec tasksABC 3).2.1 (by decide) (by decide),
   (Tasks.get_task_spec tasksABC 1).2.2 (by decide)⟩

/-- Claim C7: `push` appends at the end for every collection, empty or
populated: the task sequence becomes the old one followed by the new
task, the length grows by one, the new task sits at index `len() - 1`,
every previously stored task is unchanged at its old index, and the
other fields of the collection are untouched. -/
theorem Tasks.push_spec (ts : Tasks) (t : Task) :
    (ts.push t).taskList = ts.taskList ++ [t] ∧
    (ts.push t).len = ts.len + 1 ∧
    (ts.push t).taskList[(ts.push t).len - 1]? = some t ∧
    (∀ j, j < ts.len → (ts.push t).taskList[j]? = ts.taskList[j]?) ∧
    (ts.push t).path = ts.path ∧ (ts.push t).file = ts.file := by
  have hlist : (ts.push t).taskList = ts.taskList ++ [t] := by
    cases h : ts.tasks with
    | none => simp [Tasks.push, Tasks.is_empty, Tasks.len, Tasks.taskList, h]
    | some l =>
      cases l with
      | nil => simp [Tasks.push, Tasks.is_empty, Tasks.len, Tasks.taskList, h]
      | cons a l' => simp [Tasks.push, Tasks.is_empty, Tasks.len, Tasks.taskList, h]
  have hlen : (ts.push t).len = ts.len + 1 := by
    rw [← Tasks.taskList_length, ← Tasks.taskList_length, hlist]
    simp
  refine ⟨hlist, hlen, ?_, ?_, ?_, ?_⟩
  · rw [hlen, Nat.add_sub_cancel, hlist, ← Tasks.taskList_length]
    exact List.getElem?_concat_length _ _
  · intro j hj
    rw [hlist, List.getElem?_append, if_pos (by rw [Tasks.taskList_length]; omega)]
  · unfold Tasks.push
    split <;> rfl
  · unfold Tasks.push
    split <;> rfl

theorem Tasks.push_spec_witness :
    0 < (tasksEmpty.push taskA).len ∧
    ((tasksEmpty.push taskA).push taskB).taskList[0]? = some taskA ∧
    tasksABC.len = 3 ∧
    tasksABC.task_exists 2 = true ∧
    tasksABC.task_exists 3 = false :=
  ⟨by decide,
   (Tasks.push_spec (tasksEmpty.push taskA) taskB).2.2.2.1 0 (by decide),
   by decide, by decide, by decide⟩

/-- Claim C4: `remove(id)` fails with `TaskNotFound(id)` when `id` is out
of bounds (leaving the collection untouched); otherwise it removes
exactly the task at position `id`: the sequence becomes the prefix before
`id` followed by the suffix after it, the length drops by one, tasks
before `id` keep their indices, tasks after `id` shift down by one, and
the other fields are untouched. -/
theorem Tasks.remove_spec (ts : Tasks) (id : Nat) :
    (ts.len ≤ id → ts.remove id = (Except.error (task_not_found id), ts)) ∧
    (id < ts.len →
      (ts.remove id).1 = Except.ok () ∧
      (ts.remove id).2.taskList = ts.taskList.take id ++ ts.taskList.drop (id + 1) ∧
      (ts.remove id).2.len = ts.len - 1 ∧
      (∀ j, j < id → (ts.remove id).2.taskList[j]? = ts.taskList[j]?) ∧
      (∀ j, id ≤ j → (ts.remove id).2.taskList[j]? = ts.taskList[j + 1]?) ∧
      (ts.remove id).2.path = ts.path ∧ (ts.remove id).2.file = ts.file) := by
  refine ⟨fun h => ?_, fun h => ?_⟩
  · rw [Tasks.remove, if_neg (by simp [Tasks.task_exists]; omega)]
  · have hex : ts.task_exists id = true := by simp [Tasks.task_exists]; omega
    have hid : id < ts.taskList.length := by rw [Tasks.taskList_length]; omega
    rw [Tasks.remove, if_pos hex]
    have hlist : ({ ts with tasks := some (ts.taskList.eraseIdx id) } : Tasks).taskList =
        ts.taskList.take id ++ ts.taskList.drop (id + 1) := by
      simp [Tasks.taskList, List.eraseIdx_eq_take_drop_succ]
    refine ⟨rfl, hlist, ?_, ?_, ?_, rfl, rfl⟩
    · rw [← Tasks.taskList_length, ← Tasks.taskList_length, hlist]
      simp only [List.length_append, List.length_take, List.length_drop]
      omega
    · intro j hj
      rw [hlist, List.getElem?_append, if_pos (by simp; omega), List.getElem?_take,
        if_pos hj]
    · intro j hj
      rw [hlist, List.getElem?_append, if_neg (by simp; omega), List.getElem?_drop]
      congr 1
      simp
      omega

theorem Tasks.remove_spec_witness :
    (tasksABC.remove 3).1 = Except.error (task_not_found 3) ∧
    (tasksABC.remove 1).1 = Except.ok () ∧
    (tasksABC.remove 1).2.taskList = [taskA, taskC] ∧
    (tasksABC.remove 1).2.len = 2 ∧
    ((tasksABC.remove 1).2.get_task 1).1 = Except.ok taskC := by
  refine ⟨?_, (Tasks.remove_spec tasksABC 1).2 (by decide) |>.1, ?_, ?_, ?_⟩
  · have := (Tasks.remove_spec tasksABC 3).1 (by decide)
    rw [this]
  · have := ((Tasks.remove_spec tasksABC 1).2 (by decide)).2.1
    rw [this]
    decide
  · have := ((Tasks.remove_spec tasksABC 1).2 (by decide)).2.2.1
    rw [this]
    decide
  · rfl

/-- Claim C5: `clear()` fails with `NoTasksAvailable` on an empty
collection and leaves it untouched; on a non-empty collection it
succeeds, after which the collection is empty, has length 0, is equal to
a freshly constructed collection with the same path and file, and an
immediately following `clear()` fails with `NoTasksAvailable`. -/
theorem Tasks.clear_spec (ts : Tasks) :
    (ts.is_empty = true → ts.clear = (Except.error no_tasks_available, ts)) ∧
    (ts.is_empty = false →
      (ts.clear).1 = Except.ok () ∧
      (ts.clear).2.is_empty = true ∧
      (ts.clear).2.len = 0 ∧
      (ts.clear).2 = Tasks.new ts.path ts.file ∧
      ((ts.clear).2.clear).1 = Except.error no_tasks_available) := by
  refine ⟨fun h => ?_, fun h => ?_⟩
  · rw [Tasks.clear, if_pos h]
  · rw [Tasks.clear, if_neg (by simp [h])]
    exact ⟨rfl, rfl, rfl, rfl, rfl⟩

theorem Tasks.clear_spec_witness :
    tasksEmpty.clear = (Except.error no_tasks_available, tasksEmpty) ∧
    (tasksABC.clear).1 = Except.ok () ∧
    (tasksABC.clear).2.is_empty = true ∧
    (tasksABC.clear).2 = Tasks.new "repo" "file" ∧
    ((tasksABC.clear).2.clear).1 = Except.error no_tasks_available :=
  ⟨(Tasks.clear_spec tasksEmpty).1 rfl,
   ((Tasks.clear_spec tasksABC).2 rfl).1,
   ((Tasks.clear_spec tasksABC).2 rfl).2.1,
   ((Tasks.clear_spec tasksABC).2 rfl).2.2.2.1,
   ((Tasks.clear_spec tasksABC).2 rfl).2.2.2.2⟩

/-- Claim C8: whenever `get_task`, `remove` or `clear` returns an error,
the collection state after the call is exactly the state before it —
each operation checks its failure conditions before any mutation, so no
partial mutation precedes a failure. -/
theorem Tasks.error_preserves_state (ts : Tasks) (id : Nat) (e : TasksError) :
    ((ts.get_task id).1 = Except.error e → (ts.get_task id).2 = ts) ∧
    ((ts.remove id).1 = Except.error e → (ts.remove id).2 = ts) ∧
    ((ts.clear).1 = Except.error e → (ts.clear).2 = ts) := by
  refine ⟨fun _ => ?_, fun h => ?_, fun h => ?_⟩
  · unfold Tasks.get_task
    split
    · rfl
    · split <;> rfl
  · cases hc : ts.task_exists id with
    | true =>
      rw [Tasks.remove, if_pos hc] at h
      exact absurd h (by simp)
    | false =>
      rw [Tasks.remove, if_neg (by simp [hc])]
  · cases hc : ts.is_empty with
    | true => rw [Tasks.clear, if_pos hc]
    | false =>
      rw [Tasks.clear, if_neg (by simp [hc])] at h
      exact absurd h (by simp)

theorem Tasks.error_preserves_state_witness :
    (tasksEmpty.get_task 0).2 = tasksEmpty ∧
    (tasksABC.remove 9).2 = tasksABC ∧
    (tasksEmpty.clear).2 = tasksEmpty :=
  ⟨(Tasks.error_preserves_state tasksEmpty 0 no_tasks_available).1 rfl,
   (Tasks.error_preserves_state tasksABC 9 (task_not_found 9)).2.1 rfl,
   (Tasks.error_preserves_state tasksEmpty 0 no_tasks_available).2.2 rfl⟩

/-- Claim C10: `remove(id)` on an empty collection fails with
`TaskNotFound(id)` for every `id` — unlike `get_task` and `clear`,
`remove` never reports the `NoTasksAvailable` error kind (and the two
error values are indeed distinct). -/
theorem Tasks.remove_on_empty_spec (ts : Tasks) (id : Nat) (h : ts.len = 0) :
    ts.remove id = (Except.error (task_not_found id), ts) ∧
    task_not_found id ≠ no_tasks_available := by
  refine ⟨?_, task_not_found_ne_no_tasks_available id⟩
  rw [Tasks.remove, if_neg (by simp [Tasks.task_exists, h])]

theorem Tasks.remove_on_empty_spec_witness :
    tasksEmpty.remove 7 = (Except.error (task_not_found 7), tasksEmpty) ∧
    task_not_found 7 ≠ no_tasks_available :=
  Tasks.remove_on_empty_spec tasksEmpty 7 rfl

end Agenda
